import Mathlib

/-!
Verification of the `LocalDatastore` component of the Exegol repository
(`src/exegol/utils/LocalDatastore.py`), a SQLite-backed key-value store.

The embedding models the two tables of the store as association lists:

* table `kv`      : rows `(key : Nat, value : Value)`, declared `UNIQUE` on `key`;
* table `machine` : rows `(rid : String, mid : String)`.

SQL statements are modelled as pure list operations:

* `REPLACE INTO kv (key, value) VALUES (k, v)` deletes every row whose key
  conflicts with the `UNIQUE` constraint and inserts the new row (SQLite
  `REPLACE` semantics), i.e. `replaceInto`;
* `DELETE FROM kv WHERE key = k` is `eraseKey`;
* `SELECT value FROM kv WHERE key = k` + `fetchone` is `find?` on the list;
* `DELETE FROM machine` empties the list, `INSERT` appends;
* `SELECT * FROM machine` + `fetchone` is `head?`.

Each mutating method runs inside one transaction: the statements operate on
an uncommitted copy of the state and `commit` publishes it; any
`sqlite3.Error` triggers `rollback`, which restores the committed state, and
the exception is re-raised.  Engine-level failures are modelled by explicit
failure-injection parameters (`fail : Bool`, or a step marker for
`update_mid`); a method that re-raises is modelled by an outcome carrying
`some DBErr.sqlError` together with the (rolled-back) committed state.
-/

namespace LocalDatastore

/-- The closed key enumeration `LocalDatastore.Key` (an `IntEnum` in the
source): `EULA = 0`, `SESSION_CERT = 1`, `TOKEN = 2`, `SESSION = 3`. -/
inductive Key
  | EULA
  | SESSION_CERT
  | TOKEN
  | SESSION
deriving DecidableEq

/-- The `.value` of the `IntEnum` member: the integer stored as the primary
key of the `kv` table. -/
def Key.value : Key → Nat
  | .EULA => 0
  | .SESSION_CERT => 1
  | .TOKEN => 2
  | .SESSION => 3

/-- A stored value.  The Python API accepts `Union[str, bytes]`; a `blob`
models raw bytes, carrying their utf-8 decoding (`bytes.decode("utf-8")` in
the source) as its payload. -/
inductive Value
  | text (s : String)
  | blob (s : String)
deriving DecidableEq

/-- The decoding performed by `get_license`: a `bytes` value is decoded with
`decode("utf-8")`, a `str` value is passed through unchanged. -/
def decodeValue : Value → String
  | .text s => s
  | .blob s => s

/-- The committed database state: contents of the `kv` and `machine`
tables. -/
structure DBState where
  kv : List (Nat × Value)
  machine : List (String × String)
deriving DecidableEq

/-- A fresh backing file after `__apply_schema`: both tables empty. -/
def emptyDB : DBState := { kv := [], machine := [] }

/-- An engine-level failure (`sqlite3.Error` in the source). -/
inductive DBErr
  | sqlError
deriving DecidableEq

/-- Outcome of a mutating method: the committed state after the method
returns, plus the re-raised engine error when the transaction failed (the
Python method raises; the committed state is then the rolled-back one). -/
structure WriteOutcome where
  db : DBState
  err : Option DBErr
deriving DecidableEq

/-- `DELETE FROM kv WHERE key = k` on the row list. -/
def eraseKey (l : List (Nat × Value)) (k : Nat) : List (Nat × Value) :=
  l.filter (fun r => r.1 != k)

/-- `REPLACE INTO kv (key, value) VALUES (k, v)`: SQLite deletes the rows
conflicting on the `UNIQUE (key)` constraint, then inserts the new row (the
new row gets a fresh rowid, hence sits last in scan order). -/
def replaceInto (l : List (Nat × Value)) (k : Nat) (v : Value) : List (Nat × Value) :=
  eraseKey l k ++ [(k, v)]

/-- `SELECT value FROM kv WHERE key = k` followed by `fetchone`, projected
to the `value` column. -/
def lookupKey (l : List (Nat × Value)) (k : Nat) : Option Value :=
  (l.find? (fun r => r.1 == k)).map Prod.snd

/-- `LocalDatastore.set(key, value)` (source lines 137-150): under the write
mutex, `REPLACE INTO kv` when the value is not `None`, else `DELETE FROM kv
WHERE key = ?`, then commit; on `sqlite3.Error` roll back and re-raise.
`fail` injects an engine failure inside the `try` block. -/
def set (st : DBState) (k : Key) (v : Option Value) (fail : Bool) : WriteOutcome :=
  if fail then { db := st, err := some DBErr.sqlError }
  else
    match v with
    | some v => { db := { st with kv := replaceInto st.kv k.value v }, err := none }
    | none => { db := { st with kv := eraseKey st.kv k.value }, err := none }

/-- `LocalDatastore.get(key)` (source lines 121-135): `result = None`; in a
`try` block execute the `SELECT` and fetch one row, `sqlite3.Error` being
caught and logged; then close the implicit read transaction with a rollback
(a no-op on the committed state); return `None` when no row was fetched,
else the `value` column of the fetched row.  `queryFails` injects an engine
failure inside the `try` block. -/
def get (st : DBState) (k : Key) (queryFails : Bool) : Option Value :=
  let result := if queryFails then none else st.kv.find? (fun r => r.1 == k.value)
  match result with
  | none => none
  | some r => some r.2

/-- `LocalDatastore.get_machine_id()` (source lines 93-106): same shape as
`get` but on `SELECT * FROM machine`; a missing row yields `(None, None)`,
a present row is returned as the `(rid, mid)` tuple. -/
def get_machine_id (st : DBState) (queryFails : Bool) :
    Option String × Option String :=
  let result := if queryFails then none else st.machine.head?
  match result with
  | none => (none, none)
  | some r => (some r.1, some r.2)

/-- `LocalDatastore.get_license()` (source lines 71-78): read `TOKEN`,
decode to text when it is raw bytes, read `SESSION`, decode likewise, and
return the pair `(session, token)`. -/
def get_license (st : DBState) : Option String × Option String :=
  let token := (get st Key.TOKEN false).map decodeValue
  let session := (get st Key.SESSION false).map decodeValue
  (session, token)

/-- `LocalDatastore.deactivate_license()` (source lines 80-90): under the
write mutex, `DELETE` the `TOKEN` row then the `SESSION` row, commit; on
error roll back and re-raise.  `fail` injects an engine failure. -/
def deactivate_license (st : DBState) (fail : Bool) : WriteOutcome :=
  if fail then { db := st, err := some DBErr.sqlError }
  else
    { db := { st with kv := eraseKey (eraseKey st.kv Key.TOKEN.value) Key.SESSION.value },
      err := none }

/-- A step of `update_mid` at which an injected engine failure raises. -/
inductive MidFail
  | atDelete
  | atInsert
  | atCommit
deriving DecidableEq

/-- `LocalDatastore.update_mid(rid, mid)` (source lines 108-118): under the
write mutex, `DELETE FROM machine` then `INSERT INTO machine (rid, mid)`,
commit; on `sqlite3.Error` roll back (restoring the committed state, the
delete included) and re-raise.  The statements act on the uncommitted
workspace `u0`/`u1`/`u2`; only `commit` publishes it. -/
def update_mid (st : DBState) (rid mid : String) (failAt : Option MidFail) :
    WriteOutcome :=
  let u0 := st
  if failAt = some MidFail.atDelete then { db := st, err := some DBErr.sqlError }
  else
    let u1 := { u0 with machine := [] }
    if failAt = some MidFail.atInsert then { db := st, err := some DBErr.sqlError }
    else
      let u2 := { u1 with machine := u1.machine ++ [(rid, mid)] }
      if failAt = some MidFail.atCommit then { db := st, err := some DBErr.sqlError }
      else { db := u2, err := none }

/-- An initialization failure: `os.chown` raising `OSError`, or
`__apply_schema` re-raising a `sqlite3.Error`. -/
inductive InitErr
  | chownFailed
  | schemaFailed
deriving DecidableEq

/-- `LocalDatastore.__init__` (source lines 23-49): record whether the
backing file preexisted, connect (creating the file if absent, its content
being `st0`), then — when the file did not preexist, the platform is linux
and the process runs as uid 0 — `os.chown` the file to the invoking user
(unguarded: an `OSError` propagates out of `__init__`); enable WAL, set the
transaction mode, and apply the schema (propagating `sqlite3.Error`). -/
def datastoreInit (st0 : DBState) (wasFile : Bool) (platform : String)
    (uid : Nat) (chownOk : Bool) (schemaOk : Bool) : Except InitErr DBState :=
  if ¬wasFile ∧ platform = "linux" ∧ uid = 0 ∧ ¬chownOk then
    Except.error InitErr.chownFailed
  else if ¬schemaOk then Except.error InitErr.schemaFailed
  else Except.ok st0

/-- One store operation, for stating invariants over arbitrary call
sequences. -/
inductive StoreOp
  | opSet (k : Key) (v : Option Value) (fail : Bool)
  | opUpdateMid (rid mid : String) (failAt : Option MidFail)
  | opDeactivate (fail : Bool)

/-- The committed state after one store operation (whether or not the
operation raised). -/
def runOp (st : DBState) : StoreOp → DBState
  | .opSet k v f => (set st k v f).db
  | .opUpdateMid r m f => (update_mid st r m f).db
  | .opDeactivate f => (deactivate_license st f).db

/-- The committed state after a sequence of store operations. -/
def runOps : DBState → List StoreOp → DBState
  | st, [] => st
  | st, op :: ops => runOps (runOp st op) ops

/-- The `UNIQUE (key)` invariant of the `kv` table: no two rows share a
key. -/
def KvWf (st : DBState) : Prop :=
  (st.kv.map Prod.fst).Nodup

/-- Sequential application of successful `set` calls, one per `(key, value)`
pair, in list order: the serialization of a batch of writers each holding
the write mutex for the duration of its `set`. -/
def applySets (st : DBState) (ops : List (Key × Value)) : DBState :=
  ops.foldl (fun s p => (set s p.1 (some p.2) false).db) st

/-! ### Helper lemmas on the list model of the tables -/

theorem find?_eraseKey_self (l : List (Nat × Value)) (k : Nat) :
    (eraseKey l k).find? (fun r => r.1 == k) = none := by
  rw [List.find?_eq_none]
  intro r hr
  have := List.of_mem_filter hr
  simpa using this

theorem lookup_eraseKey_self (l : List (Nat × Value)) (k : Nat) :
    lookupKey (eraseKey l k) k = none := by
  simp [lookupKey, find?_eraseKey_self]

theorem find?_filter_of_imp {α : Type} (p q : α → Bool) (l : List α)
    (h : ∀ r, p r = true → q r = true) : (l.filter q).find? p = l.find? p := by
  induction l with
  | nil => simp
  | cons a l ih =>
    cases hqa : q a with
    | true =>
      rw [List.filter_cons_of_pos hqa]
      cases hpa : p a with
      | true => rw [List.find?_cons_of_pos _ hpa, List.find?_cons_of_pos _ hpa]
      | false =>
        rw [List.find?_cons_of_neg _ (by simp [hpa]),
          List.find?_cons_of_neg _ (by simp [hpa])]
        exact ih
    | false =>
      have hpa : p a = false := by
        cases hpa : p a with
        | true => rw [h a hpa] at hqa; cases hqa
        | false => rfl
      rw [List.filter_cons_of_neg (by simp [hqa]),
        List.find?_cons_of_neg _ (by simp [hpa])]
      exact ih

theorem lookup_eraseKey_ne (l : List (Nat × Value)) (k k' : Nat) (h : k' ≠ k) :
    lookupKey (eraseKey l k) k' = lookupKey l k' := by
  unfold lookupKey eraseKey
  rw [find?_filter_of_imp]
  intro r hr
  have : r.1 = k' := by simpa using hr
  simpa [this] using h

theorem lookup_append (l₁ l₂ : List (Nat × Value)) (k : Nat) :
    lookupKey (l₁ ++ l₂) k = (lookupKey l₁ k).or (lookupKey l₂ k) := by
  unfold lookupKey
  rw [List.find?_append]
  cases l₁.find? (fun r => r.1 == k) <;> simp

theorem lookup_singleton_ne (k k' : Nat) (v : Value) (h : k' ≠ k) :
    lookupKey [(k, v)] k' = none := by
  unfold lookupKey
  rw [List.find?_cons_of_neg _ (by simpa using fun hkk => h hkk.symm), List.find?_nil]
  rfl

theorem lookup_replaceInto_self (l : List (Nat × Value)) (k : Nat) (v : Value) :
    lookupKey (replaceInto l k v) k = some v := by
  unfold replaceInto
  rw [lookup_append, lookup_eraseKey_self]
  simp [lookupKey, List.find?_cons_of_pos]

theorem lookup_replaceInto_ne (l : List (Nat × Value)) (k k' : Nat) (v : Value)
    (h : k' ≠ k) : lookupKey (replaceInto l k v) k' = lookupKey l k' := by
  unfold replaceInto
  rw [lookup_append, lookup_eraseKey_ne l k k' h, lookup_singleton_ne k k' v h,
    Option.or_none]

theorem get_eq_lookup (st : DBState) (k : Key) :
    get st k false = lookupKey st.kv k.value := by
  unfold get lookupKey
  cases h : st.kv.find? (fun r => r.1 == k.value) <;> simp [h]

theorem filter_eraseKey_self (l : List (Nat × Value)) (k : Nat) :
    (eraseKey l k).filter (fun r => r.1 == k) = [] := by
  rw [List.filter_eq_nil_iff]
  intro r hr
  have := List.of_mem_filter hr
  simpa using this

theorem filter_replaceInto_self (l : List (Nat × Value)) (k : Nat) (v : Value) :
    (replaceInto l k v).filter (fun r => r.1 == k) = [(k, v)] := by
  unfold replaceInto
  rw [List.filter_append, filter_eraseKey_self]
  simp

theorem keys_nodup_eraseKey (l : List (Nat × Value)) (k : Nat)
    (h : (l.map Prod.fst).Nodup) : ((eraseKey l k).map Prod.fst).Nodup :=
  ((List.filter_sublist l).map Prod.fst).nodup h

theorem not_mem_keys_eraseKey (l : List (Nat × Value)) (k : Nat) :
    k ∉ (eraseKey l k).map Prod.fst := by
  intro hmem
  obtain ⟨r, hr, hfst⟩ := List.mem_map.mp hmem
  have := List.of_mem_filter hr
  rw [hfst] at this
  simp at this

theorem keys_nodup_replaceInto (l : List (Nat × Value)) (k : Nat) (v : Value)
    (h : (l.map Prod.fst).Nodup) : ((replaceInto l k v).map Prod.fst).Nodup := by
  unfold replaceInto
  rw [List.map_append, List.nodup_append]
  refine ⟨keys_nodup_eraseKey l k h, by simp, ?_⟩
  intro a ha hb
  simp at hb
  rw [hb] at ha
  exact not_mem_keys_eraseKey l k ha

theorem key_value_injective (k k' : Key) (h : k' ≠ k) : k'.value ≠ k.value := by
  cases k <;> cases k' <;> first | exact absurd rfl h | decide

theorem set_some_db (st : DBState) (k : Key) (v : Value) :
    (set st k (some v) false).db = { st with kv := replaceInto st.kv k.value v } := rfl

theorem set_none_db (st : DBState) (k : Key) :
    (set st k none false).db = { st with kv := eraseKey st.kv k.value } := rfl

theorem deactivate_license_db (st : DBState) :
    (deactivate_license st false).db =
      { st with kv := eraseKey (eraseKey st.kv Key.TOKEN.value) Key.SESSION.value } := rfl

/-! ### Claim theorems -/

/-- C1: for every key `k` of the closed key enumeration and every non-`None`
value `v`, `get(k)` called after `set(k, v)` returns exactly `v`, and
`get(k)` called after `set(k, None)` (the API's delete of `k`) returns
absent (`None`). -/
theorem get_after_set_roundtrip (st : DBState) (k : Key) (v : Value) :
    get (set st k (some v) false).db k false = some v ∧
    get (set st k none false).db k false = none := by
  constructor
  · rw [get_eq_lookup, set_some_db]
    exact lookup_replaceInto_self st.kv k.value v
  · rw [get_eq_lookup, set_none_db]
    exact lookup_eraseKey_self st.kv k.value

/-- C2: `update_mid` called twice leaves exactly one row in the `machine`
table, holding the values of the latest call; and when the insert step fails
after the delete step, the transaction rolls back: the raised outcome leaves
the committed state untouched, its prior machine row intact. -/
theorem update_mid_singleton_and_atomic :
    (∀ (st : DBState) (r₁ m₁ r₂ m₂ : String),
      ((update_mid (update_mid st r₁ m₁ none).db r₂ m₂ none).db).machine = [(r₂, m₂)]) ∧
    (∀ (st : DBState) (r m : String),
      update_mid st r m (some MidFail.atInsert) =
        { db := st, err := some DBErr.sqlError }) :=
  ⟨fun _ _ _ _ _ => rfl, fun _ _ _ => rfl⟩

/-- C3: for every key `k`, calling `set(k, value)` with the empty (absent)
value `None` clears the fact: the row for `k` is removed from the `kv`
table (in particular no empty string is stored under `k`), and a subsequent
`get(k)` returns absent. -/
theorem set_none_clears (st : DBState) (k : Key) :
    ((set st k none false).db.kv.filter (fun r => r.1 == k.value)) = [] ∧
    get (set st k none false).db k false = none := by
  constructor
  · rw [set_none_db]
    exact filter_eraseKey_self st.kv k.value
  · rw [get_eq_lookup, set_none_db]
    exact lookup_eraseKey_self st.kv k.value

/-- C4: for every key `k`, the read operations never raise to the caller:
on an engine-level failure inside the query, `get` returns absent (`None`)
and `get_machine_id` returns `(None, None)` (the error is only logged). -/
theorem reads_degrade_to_absent (st : DBState) (k : Key) :
    get st k true = none ∧ get_machine_id st true = (none, none) :=
  ⟨rfl, rfl⟩

/-- C9 (frame effect of `set`): a successful `set(k, v)` changes at most the
row for `k`: every other key `k' ≠ k` reads back unchanged, and the
`machine` table is untouched.  This covers both the upsert (`v = some _`)
and the delete (`v = none`) branch. -/
theorem set_frame (st : DBState) (k k' : Key) (v : Option Value) (h : k' ≠ k) :
    get (set st k v false).db k' false = get st k' false ∧
    (set st k v false).db.machine = st.machine := by
  have hval : k'.value ≠ k.value := key_value_injective k k' h
  cases v with
  | some v =>
    refine ⟨?_, rfl⟩
    rw [get_eq_lookup, get_eq_lookup, set_some_db]
    exact lookup_replaceInto_ne st.kv k.value k'.value v hval
  | none =>
    refine ⟨?_, rfl⟩
    rw [get_eq_lookup, get_eq_lookup, set_none_db]
    exact lookup_eraseKey_ne st.kv k.value k'.value hval

/-- Witness for C9 at a concrete input: `k = EULA`, `k' = TOKEN`. -/
theorem set_frame_witness :
    (Key.TOKEN ≠ Key.EULA) ∧
    (get (set emptyDB Key.EULA (some (Value.text "1")) false).db Key.TOKEN false =
        get emptyDB Key.TOKEN false ∧
      (set emptyDB Key.EULA (some (Value.text "1")) false).db.machine = emptyDB.machine) :=
  ⟨by decide, set_frame emptyDB Key.EULA Key.TOKEN (some (Value.text "1")) (by decide)⟩

/-- C10 (frame effect of `deactivate_license`): it removes exactly the
`TOKEN` and `SESSION` rows of the `kv` table; the values stored under
`EULA` and `SESSION_CERT`, and the `machine` table, are unchanged. -/
theorem deactivate_license_frame (st : DBState) :
    get (deactivate_license st false).db Key.TOKEN false = none ∧
    get (deactivate_license st false).db Key.SESSION false = none ∧
    get (deactivate_license st false).db Key.EULA false = get st Key.EULA false ∧
    get (deactivate_license st false).db Key.SESSION_CERT false =
      get st Key.SESSION_CERT false ∧
    (deactivate_license st false).db.machine = st.machine := by
  refine ⟨?_, ?_, ?_, ?_, rfl⟩
  · rw [get_eq_lookup, deactivate_license_db]
    rw [lookup_eraseKey_ne _ _ _ (by decide)]
    exact lookup_eraseKey_self st.kv Key.TOKEN.value
  · rw [get_eq_lookup, deactivate_license_db]
    exact lookup_eraseKey_self _ Key.SESSION.value
  · rw [get_eq_lookup, get_eq_lookup, deactivate_license_db]
    rw [lookup_eraseKey_ne _ _ _ (by decide)]
    exact lookup_eraseKey_ne st.kv Key.TOKEN.value Key.EULA.value (by decide)
  · rw [get_eq_lookup, get_eq_lookup, deactivate_license_db]
    rw [lookup_eraseKey_ne _ _ _ (by decide)]
    exact lookup_eraseKey_ne st.kv Key.TOKEN.value Key.SESSION_CERT.value (by decide)

/-- C7: `get_license` returns the pair `(session, token)` read from the
`SESSION` and `TOKEN` keys, decoded to text whether the stored value is raw
bytes or text; on a fresh store it returns `(None, None)`; after setting
token then session it returns them as `(session, token)` (so for
token = "abc", session = "xyz" it returns `("xyz", "abc")`, for either
stored representation); after `deactivate_license` it returns
`(None, None)` again. -/
theorem get_license_representation_roundtrip :
    get_license emptyDB = (none, none) ∧
    (∀ (st : DBState) (tv sv : Value),
      get_license
          (set (set st Key.TOKEN (some tv) false).db Key.SESSION (some sv) false).db =
        (some (decodeValue sv), some (decodeValue tv))) ∧
    (∀ st : DBState, get_license (deactivate_license st false).db = (none, none)) := by
  refine ⟨rfl, ?_, ?_⟩
  · intro st tv sv
    unfold get_license
    rw [get_eq_lookup, get_eq_lookup, set_some_db, set_some_db]
    rw [lookup_replaceInto_self]
    rw [lookup_replaceInto_ne _ _ _ _ (by decide), lookup_replaceInto_self]
    rfl
  · intro st
    unfold get_license
    rw [get_eq_lookup, get_eq_lookup, deactivate_license_db]
    rw [lookup_eraseKey_self]
    rw [lookup_eraseKey_ne _ _ _ (by decide), lookup_eraseKey_self]
    rfl

/-- C5 counterexample: concrete initialization where the backing file did
not preexist, the platform is linux, the process runs as uid 0, and the
chown fails.  The claim says initialization still succeeds; in the code the
unguarded `os.chown` propagates its error, so initialization does not
return a store (`isOk = false`). -/
theorem init_chown_failure_counterexample :
    datastoreInit emptyDB false "linux" 0 false true =
      Except.error InitErr.chownFailed ∧
    (datastoreInit emptyDB false "linux" 0 false true).isOk = false :=
  ⟨rfl, rfl⟩

/-- C5 amended: when the backing file did not preexist and the process runs
elevated (uid 0) on linux, a failure of the one-time ownership change makes
store initialization itself fail with that error — it is not caught and
downgraded to a warning-level condition. -/
theorem init_chown_failure_propagates (st0 : DBState) (schemaOk : Bool) :
    datastoreInit st0 false "linux" 0 false schemaOk =
      Except.error InitErr.chownFailed := by
  unfold datastoreInit
  rw [if_pos]
  exact ⟨by decide, rfl, rfl, by decide⟩

/-- Preservation of the `kv` `UNIQUE (key)` invariant by one store
operation, raising or not. -/
theorem kvwf_runOp (st : DBState) (op : StoreOp) (h : KvWf st) :
    KvWf (runOp st op) := by
  cases op with
  | opSet k v f =>
    cases f with
    | true => exact h
    | false =>
      cases v with
      | some v => exact keys_nodup_replaceInto st.kv k.value v h
      | none => exact keys_nodup_eraseKey st.kv k.value h
  | opUpdateMid r m failAt =>
    cases failAt with
    | none => exact h
    | some s => cases s <;> exact h
  | opDeactivate f =>
    cases f with
    | true => exact h
    | false => exact keys_nodup_eraseKey _ _ (keys_nodup_eraseKey _ _ h)

/-- C6: `set(k, v₁)` followed by `set(k, v₂)` leaves exactly one row for `k`
in the `kv` table, with value `v₂`; and the invariant "at most one row per
key" (no two rows of `kv` share a key) is preserved by every sequence of
store operations. -/
theorem kv_unique_upsert_invariant :
    (∀ (st : DBState) (k : Key) (v₁ v₂ : Value),
      ((set (set st k (some v₁) false).db k (some v₂) false).db.kv.filter
        (fun r => r.1 == k.value)) = [(k.value, v₂)]) ∧
    (∀ (st : DBState) (ops : List StoreOp), KvWf st → KvWf (runOps st ops)) := by
  constructor
  · intro st k v₁ v₂
    rw [set_some_db, set_some_db]
    exact filter_replaceInto_self _ k.value v₂
  · intro st ops h
    induction ops generalizing st with
    | nil => exact h
    | cons op ops ih => exact ih _ (kvwf_runOp st op h)

/-- Witness for C6 at a concrete input: the fresh store satisfies the
invariant and keeps it across a sample operation sequence. -/
theorem kv_unique_upsert_invariant_witness :
    KvWf emptyDB ∧
    KvWf (runOps emptyDB
      [StoreOp.opSet Key.TOKEN (some (Value.text "t")) false,
        StoreOp.opUpdateMid "r" "m" none,
        StoreOp.opSet Key.TOKEN (some (Value.text "u")) false]) :=
  ⟨by unfold KvWf; decide, kv_unique_upsert_invariant.2 emptyDB _ (by unfold KvWf; decide)⟩

theorem lookup_applySets_not_mem :
    ∀ (ops : List (Key × Value)) (st : DBState) (k : Nat),
      k ∉ ops.map (fun p => p.1.value) →
      lookupKey (applySets st ops).kv k = lookupKey st.kv k := by
  intro ops
  induction ops with
  | nil => intro st k _; rfl
  | cons q ops ih =>
    intro st k h
    rw [List.map_cons, List.mem_cons] at h
    push_neg at h
    show lookupKey (applySets (set st q.1 (some q.2) false).db ops).kv k = _
    rw [ih _ k h.2, set_some_db]
    exact lookup_replaceInto_ne st.kv q.1.value k q.2 h.1

theorem lookup_applySets_mem :
    ∀ (ops : List (Key × Value)) (st : DBState) (p : Key × Value),
      (ops.map (fun p => p.1.value)).Nodup → p ∈ ops →
      lookupKey (applySets st ops).kv p.1.value = some p.2 := by
  intro ops
  induction ops with
  | nil => intro st p _ hp; cases hp
  | cons q ops ih =>
    intro st p hnd hp
    rw [List.map_cons, List.nodup_cons] at hnd
    cases List.mem_cons.mp hp with
    | inl hpq =>
      subst hpq
      show lookupKey (applySets (set st p.1 (some p.2) false).db ops).kv p.1.value =
        some p.2
      rw [lookup_applySets_not_mem ops _ p.1.value hnd.1, set_some_db]
      exact lookup_replaceInto_self st.kv p.1.value p.2
    | inr hmem =>
      exact ih _ p hnd.2 hmem

/-- C8: with every `set` made atomic by the single write mutex, an execution
of concurrent writer threads is a serialization: some total order (`exec`,
an arbitrary permutation of the threads' calls, hence covering every
interleaving) of all the calls.  When the threads write distinct keys, the
final state gives every call its written value — no lost updates, no
corruption. -/
theorem concurrent_sets_linearizable (threads : List (List (Key × Value)))
    (exec : List (Key × Value)) (st : DBState)
    (hperm : exec.Perm threads.flatten)
    (hnd : ((threads.flatten).map (fun p => p.1.value)).Nodup) :
    ∀ p ∈ threads.flatten, lookupKey (applySets st exec).kv p.1.value = some p.2 := by
  intro p hp
  have hnd' : (exec.map (fun p => p.1.value)).Nodup :=
    ((hperm.map (fun p => p.1.value)).nodup_iff).mpr hnd
  exact lookup_applySets_mem exec st p hnd' (hperm.mem_iff.mpr hp)

/-- Witness for C8 at a concrete input: two one-call threads, executed in
the order opposite to their listing. -/
theorem concurrent_sets_linearizable_witness :
    (([((Key.TOKEN : Key), Value.text "t"), (Key.EULA, Value.text "1")]).Perm
      ([[((Key.EULA : Key), Value.text "1")], [(Key.TOKEN, Value.text "t")]].flatten) ∧
      (([[((Key.EULA : Key), Value.text "1")],
        [(Key.TOKEN, Value.text "t")]].flatten.map (fun p => p.1.value)).Nodup)) ∧
    lookupKey
      (applySets emptyDB [(Key.TOKEN, Value.text "t"), (Key.EULA, Value.text "1")]).kv
      Key.EULA.value = some (Value.text "1") :=
  ⟨⟨by decide, by decide⟩,
    concurrent_sets_linearizable
      [[(Key.EULA, Value.text "1")], [(Key.TOKEN, Value.text "t")]]
      [(Key.TOKEN, Value.text "t"), (Key.EULA, Value.text "1")]
      emptyDB (by decide) (by decide) (Key.EULA, Value.text "1") (by decide)⟩

end LocalDatastore
